import Mathlib

/-!
Verification development for the round-barrier aggregation server in
src/grpc_expts/server_benchmark.py.

The Python source is shallowly embedded: the servicer's mutable fields
become a `ServerState` record, each RPC handler becomes a pure function
from state (plus the values the handler reads from the environment, such
as the current time or the stream of random integers) to a new state and
a result, and the code raising a Python exception is embedded as
`Except`.  Tensors are embedded as lists of rationals, Python
`OrderedDict`s as association lists that preserve insertion order, and
`time.time()` as an explicit rational argument.

The concurrent behaviour of `SendMessage` (two clients of one round
interleaving under the servicer's single lock and condition variable) is
embedded further below as a small-step transition system.
-/

namespace Sonar

/-- A dense numeric tensor, embedded elementwise as a list of rationals
(mirroring a flattened `torch.Tensor`). -/
abbrev Tensor := List ℚ

/-- A Python `OrderedDict[str, Tensor]` (a model state dict): an
association list that keeps insertion order. -/
abbrev ParameterMap := List (String × Tensor)

/-- `pat.isPrefixOf l` lifted to a contiguous-substring test: embeds the
Python substring test `pat in s` on the character lists of the strings. -/
def hasSubstr (pat : List Char) : List Char → Bool
  | [] => pat.isEmpty
  | c :: rest => pat.isPrefixOf (c :: rest) || hasSubstr pat rest

/-- Embeds the test `"bn" in name` at line 161 of server_benchmark.py:
whether the parameter name contains the substring "bn". -/
def containsBn (name : String) : Bool :=
  hasSubstr "bn".data name.data

/-- Elementwise tensor addition: embeds `avg_state_dict[name] += param`. -/
def addT (a b : Tensor) : Tensor := List.zipWith (· + ·) a b

/-- Elementwise division by a scalar: embeds `param / float(n)`. -/
def divT (t : Tensor) (n : ℚ) : Tensor := t.map (· / n)

/-- Python dict assignment `d[k] = v` on an insertion-ordered
association list: replaces the value in place if `k` is present,
otherwise appends the new binding at the end. -/
def odSet {β : Type} (d : List (String × β)) (k : String) (v : β) :
    List (String × β) :=
  match d with
  | [] => [(k, v)]
  | (k2, v2) :: rest =>
      if k2 = k then (k, v) :: rest else (k2, v2) :: odSet rest k v

/-- One iteration of the inner loop of `_compute_global_average`
(lines 160-166): skip the entry if its name contains "bn", otherwise
initialise or elementwise-accumulate it in the running sum. -/
def accumEntry (avg : ParameterMap) (e : String × Tensor) : ParameterMap :=
  if containsBn e.1 then avg
  else
    match List.lookup e.1 avg with
    | none => odSet avg e.1 e.2
    | some t => odSet avg e.1 (addT t e.2)

/-- The inner loop of `_compute_global_average` over one state dict. -/
def accumMap (avg : ParameterMap) (sd : ParameterMap) : ParameterMap :=
  sd.foldl accumEntry avg

/-- The summation loop of `_compute_global_average` (lines 159-166)
over all collected state dicts, starting from the empty accumulator. -/
def sumDicts (ls : List ParameterMap) : ParameterMap :=
  ls.foldl accumMap []

/-- `CommunicationServicer._compute_global_average` (lines 152-172) as a
pure function of the collected `local_averages`: returns `none` when the
collected list is empty (the early `return None` at line 154), otherwise
the summed parameters divided by the actual number of collected models
(`len(self.local_averages)`). -/
def computeGlobalAverage (ls : List ParameterMap) : Option ParameterMap :=
  if ls.isEmpty then none
  else
    some ((sumDicts ls).map (fun e => (e.1, divT e.2 (ls.length : ℚ))))

/-- Specification-side accumulator for the values of one parameter name
across a list of state dicts. -/
def sumStep (k : String) (a : Option Tensor) (m : ParameterMap) :
    Option Tensor :=
  match List.lookup k m with
  | none => a
  | some p =>
      match a with
      | none => some p
      | some t => some (addT t p)

/-! ## Identity registry and server state -/

/-- `Constants.STATUS_ALIVE` from server_benchmark.py. -/
def STATUS_ALIVE : String := "ALIVE"

/-- `Constants.STATUS_DEAD` from server_benchmark.py. -/
def STATUS_DEAD : String := "DEAD"

/-- One entry of `self.user_ids`: the per-client dict created by `GetID`
with keys `user_num`, `status` and `last_active` (line 77-81).
`time.time()` values are embedded as rationals. -/
structure Session where
  user_num : Nat
  status : String
  last_active : ℚ
deriving DecidableEq, Repr

/-- The mutable fields of `CommunicationServicer` that the handlers read
and write: `user_ids` (a Python dict, embedded as an insertion-ordered
association list), `local_averages`, `state_dict`, and the fixed
parameters of the initial server model `self.model` (only ever read
through `self.model.state_dict()` in `GetModel`). -/
structure ServerState where
  user_ids : List (String × Session)
  local_averages : List ParameterMap
  state_dict : Option ParameterMap
  model_params : ParameterMap
deriving DecidableEq, Repr

/-- `self.target_clients = 2` (line 39). -/
def target_clients : Nat := 2

/-- `hex(hash(int_id))` at line 66: for a Python `int` in
`[0, 2**31 - 1)` the builtin `hash` is the identity, and `hex` renders
the number in lowercase base 16 with a `0x` prefix. -/
def hexStr (n : Nat) : String :=
  "0x" ++ (Nat.toDigits 16 n).asString

/-- `CommunicationServicer._generate_ID` (lines 58-70).  The successive
draws of `np.random.randint(0, 2**31 - 1)` are embedded as an explicit
candidate stream; the `while random_id in self.user_ids` loop takes the
first candidate whose rendered id is not a currently registered key.
`none` embeds the stream running out (in the source the loop would keep
drawing). -/
def generate_ID (user_ids : List (String × Session)) :
    List Nat → Option String
  | [] => none
  | c :: rest =>
      let random_id := hexStr c
      if (List.lookup random_id user_ids).isSome then
        generate_ID user_ids rest
      else some random_id

/-- `CommunicationServicer.GetID` (lines 72-83): generate a fresh id,
assign ordinal `len(self.user_ids) + 1`, insert a new ALIVE session
with `last_active = time.time()`, and return `(id, num)`. -/
def GetID (cands : List Nat) (now : ℚ) (s : ServerState) :
    Option (ServerState × String × Nat) :=
  match generate_ID s.user_ids cands with
  | none => none
  | some random_id =>
      let user_num := s.user_ids.length + 1
      some
        ({ s with
            user_ids :=
              s.user_ids ++
                [(random_id,
                  { user_num := user_num, status := STATUS_ALIVE,
                    last_active := now })] },
          random_id, user_num)

/-- The sweep loop of `GetSize` (lines 87-91), written entrywise: a
session idle for strictly more than 300 seconds is marked DEAD, any
other session is left unchanged. -/
def sweepSession (now : ℚ) (sess : Session) : Session :=
  if now - sess.last_active > 300 then { sess with status := STATUS_DEAD }
  else sess

/-- The count at lines 93-99: the number of registered sessions whose
status is ALIVE. -/
def aliveCount (user_ids : List (String × Session)) : Nat :=
  (user_ids.filter (fun e => e.2.status = STATUS_ALIVE)).length

/-- `CommunicationServicer.GetSize` (lines 85-100): sweep every session,
marking the stale ones DEAD in place (no session is removed), then
return the number of sessions currently ALIVE. -/
def GetSize (now : ℚ) (s : ServerState) : ServerState × Nat :=
  let swept := s.user_ids.map (fun e => (e.1, sweepSession now e.2))
  ({ s with user_ids := swept }, aliveCount swept)

/-- `CommunicationServicer.GetModel` (lines 102-107): if
`self.state_dict` is falsy (still `None`, or an empty dict) serve the
initial model's own parameters, otherwise serve the stored aggregate. -/
def GetModel (s : ServerState) : ParameterMap :=
  match s.state_dict with
  | none => s.model_params
  | some d => if d.isEmpty then s.model_params else d

/-- `CommunicationServicer.SendBye` (lines 145-150):
`self.user_ids.pop(request.id)` removes the entry, raising `KeyError`
(embedded as the `Except.error`) when the id is not registered. -/
def SendBye (id : String) (s : ServerState) : Except Unit ServerState :=
  if (List.lookup id s.user_ids).isSome then
    Except.ok
      { s with user_ids := s.user_ids.eraseP (fun e => e.1 == id) }
  else Except.error ()

/-- The failure of `SendMessage` on an unregistered id: line 112
subscripts `self.user_ids[user_id]`, raising `KeyError` for an id that
is not registered; gRPC surfaces that to the caller as the failed
(UnknownClient) outcome of the RPC. -/
inductive SubmitError where
  | unknownClient
deriving DecidableEq, Repr

/-- Lines 110-112 of `SendMessage`, its first step: look up the caller's
session and set its `last_active` to `time.time()`; an unregistered id
raises before anything else happens. -/
def sendMessageHeartbeat (id : String) (now : ℚ) (s : ServerState) :
    Except SubmitError ServerState :=
  match List.lookup id s.user_ids with
  | none => Except.error SubmitError.unknownClient
  | some sess =>
      Except.ok
        { s with
            user_ids := odSet s.user_ids id { sess with last_active := now } }

/-- Lines 109-119 of `SendMessage`: the heartbeat, then (under the lock)
the append of the deserialized parameter map to `self.local_averages`.
No check against an earlier submission by the same client is made. -/
def sendMessageArrive (id : String) (pm : ParameterMap) (now : ℚ)
    (s : ServerState) : Except SubmitError ServerState :=
  match sendMessageHeartbeat id now s with
  | Except.error e => Except.error e
  | Except.ok s2 =>
      Except.ok { s2 with local_averages := s2.local_averages ++ [pm] }

/-- The state effect of `self._compute_global_average()` as invoked at
line 133: when the collected list is empty the method returns `None`
without touching `self.state_dict`; otherwise it stores the average. -/
def computeGlobalAverageStep (s : ServerState) : ServerState :=
  match computeGlobalAverage s.local_averages with
  | none => s
  | some avg => { s with state_dict := some avg }
/-! ## Interleaving model of `SendMessage` (lines 116-143)

Two clients of one round call `SendMessage` concurrently
(`target_clients = 2`).  Each locked region of the handler is one
atomic transition, faithful to the source because every access to the
shared fields below happens while holding `self.lock` (the condition
variable at line 38 is built on that same lock, so `with self.condition`
re-acquires it, and `Condition.wait` atomically releases the lock while
suspending).  The parameter maps themselves never influence control
flow, so the map deserialized from thread `i` is represented by the
index `i : Fin 2`; `published = some l` stands for
`self.state_dict = computeGlobalAverage` of the maps listed by `l`.

Program counters of one thread through lines 116-143:
`start`  before the first `with self.lock` block (lines 116-123);
`entry`  before the `with self.condition` check (lines 125-130);
`waiting` suspended in `self.condition.wait()`;
`woken`  notified, about to re-acquire the lock and re-check the guard;
`ready`  before the `with self.lock` block at lines 132-134;
`done`   returned (line 143). -/

/-- Program counter of one `SendMessage` thread. -/
inductive PC where
  | start | entry | waiting | woken | ready | done
deriving DecidableEq, Repr

/-- One thread of the round: its program counter and, once it has
returned, the value of `self.state_dict` it observed at its return
(`none` while still running). -/
structure TState where
  pc : PC
  obs : Option (List (Fin 2))
deriving DecidableEq, Repr

/-- The shared servicer state that lines 116-143 read and write:
`collected` is `self.local_averages` (maps named by submitting thread),
`num_clients` is `self.num_clients`, `published` is `self.state_dict`
(abstractly, the list of maps whose average it stores), `notified`
records that `self.condition.notify_all()` has run, `aggCount` counts
the invocations of `self._compute_global_average()`, and `effCount`
counts those invocations that found a non-empty collected list and
stored an aggregate. -/
structure BarrierState where
  collected : List (Fin 2)
  num_clients : Nat
  published : Option (List (Fin 2))
  notified : Bool
  aggCount : Nat
  effCount : Nat
  t0 : TState
  t1 : TState
deriving DecidableEq, Repr

/-- The thread-local state of thread `i`. -/
def getT (s : BarrierState) (i : Fin 2) : TState :=
  if i = 0 then s.t0 else s.t1

/-- Replace the thread-local state of thread `i`. -/
def setT (s : BarrierState) (i : Fin 2) (t : TState) : BarrierState :=
  if i = 0 then { s with t0 := t } else { s with t1 := t }

/-- Effect of `notify_all` on one thread: a thread suspended in
`condition.wait()` becomes runnable again (it still has to re-acquire
the lock and re-check the guard before leaving the wait loop). -/
def wakeT (t : TState) : TState :=
  if t.pc = PC.waiting then { t with pc := PC.woken } else t

/-- The next atomic transition of thread `i`, if it has one.

`start`: lines 116-123 — append the caller's map, set
`self.num_clients` to the new length, and if the target is reached run
`notify_all`.  `entry`/`woken`: one evaluation of the guard of
`while self.num_clients < self.target_clients` under the lock, either
entering `wait()` or leaving the loop.  `ready`: lines 132-134 — invoke
`_compute_global_average` (which stores an aggregate only when the
collected list is non-empty) and clear `self.local_averages`; the
thread then returns, observing the published snapshot. -/
def stepThread (i : Fin 2) (s : BarrierState) : Option BarrierState :=
  let t := getT s i
  match t.pc with
  | PC.start =>
      let collected := s.collected ++ [i]
      let num := collected.length
      let s1 := { s with collected := collected, num_clients := num }
      let s2 :=
        if target_clients ≤ num then
          { s1 with notified := true, t0 := wakeT s1.t0, t1 := wakeT s1.t1 }
        else s1
      some (setT s2 i { getT s2 i with pc := PC.entry })
  | PC.entry =>
      if s.num_clients < target_clients then
        some (setT s i { t with pc := PC.waiting })
      else some (setT s i { t with pc := PC.ready })
  | PC.waiting => none
  | PC.woken =>
      if s.num_clients < target_clients then
        some (setT s i { t with pc := PC.waiting })
      else some (setT s i { t with pc := PC.ready })
  | PC.ready =>
      let s1 := { s with aggCount := s.aggCount + 1 }
      let s2 :=
        if s1.collected.isEmpty then s1
        else
          { s1 with
              published := some s1.collected, effCount := s1.effCount + 1 }
      let s3 := { s2 with collected := [] }
      some (setT s3 i { pc := PC.done, obs := s3.published })
  | PC.done => none

/-- All successors of a state: either thread may take its next step. -/
def succs (s : BarrierState) : List BarrierState :=
  (stepThread 0 s).toList ++ (stepThread 1 s).toList

/-- The initial state: neither call has started, nothing collected,
`self.state_dict` still `None`. -/
def initBarrier : BarrierState :=
  { collected := [], num_clients := 0, published := none,
    notified := false, aggCount := 0, effCount := 0,
    t0 := { pc := PC.start, obs := none },
    t1 := { pc := PC.start, obs := none } }

/-- Reachability from the initial state along `succs`. -/
inductive Reach : BarrierState → Prop where
  | refl : Reach initBarrier
  | step {s t : BarrierState} : Reach s → t ∈ succs s → Reach t

/-- Both calls have returned. -/
def bothDone (s : BarrierState) : Bool :=
  s.t0.pc = PC.done && s.t1.pc = PC.done

/-- Run a schedule (a list of thread indices) from the initial state;
an index whose thread has no step leaves the state unchanged. -/
def runSched (l : List (Fin 2)) : BarrierState :=
  l.foldl (fun s i => (stepThread i s).getD s) initBarrier

/-- The set of states reachable from `initBarrier`, listed explicitly
(obtained by exhaustively exploring `succs`; that it really contains
every reachable state is proved by `initBarrier_mem_RSet` and
`RSet_closed` below). -/
def RSet : List BarrierState :=
  [{ collected := [], num_clients := 0, published := none, notified := false, aggCount := 0, effCount := 0, t0 := { pc := PC.start, obs := none }, t1 := { pc := PC.start, obs := none} },
   { collected := [0], num_clients := 1, published := none, notified := false, aggCount := 0, effCount := 0, t0 := { pc := PC.entry, obs := none }, t1 := { pc := PC.start, obs := none} },
   { collected := [1], num_clients := 1, published := none, notified := false, aggCount := 0, effCount := 0, t0 := { pc := PC.start, obs := none }, t1 := { pc := PC.entry, obs := none} },
   { collected := [0], num_clients := 1, published := none, notified := false, aggCount := 0, effCount := 0, t0 := { pc := PC.waiting, obs := none }, t1 := { pc := PC.start, obs := none} },
   { collected := [0, 1], num_clients := 2, published := none, notified := true, aggCount := 0, effCount := 0, t0 := { pc := PC.entry, obs := none }, t1 := { pc := PC.entry, obs := none} },
   { collected := [1, 0], num_clients := 2, published := none, notified := true, aggCount := 0, effCount := 0, t0 := { pc := PC.entry, obs := none }, t1 := { pc := PC.entry, obs := none} },
   { collected := [1], num_clients := 1, published := none, notified := false, aggCount := 0, effCount := 0, t0 := { pc := PC.start, obs := none }, t1 := { pc := PC.waiting, obs := none} },
   { collected := [0, 1], num_clients := 2, published := none, notified := true, aggCount := 0, effCount := 0, t0 := { pc := PC.woken, obs := none }, t1 := { pc := PC.entry, obs := none} },
   { collected := [0, 1], num_clients := 2, published := none, notified := true, aggCount := 0, effCount := 0, t0 := { pc := PC.entry, obs := none }, t1 := { pc := PC.ready, obs := none} },
   { collected := [1, 0], num_clients := 2, published := none, notified := true, aggCount := 0, effCount := 0, t0 := { pc := PC.ready, obs := none }, t1 := { pc := PC.entry, obs := none} },
   { collected := [1, 0], num_clients := 2, published := none, notified := true, aggCount := 0, effCount := 0, t0 := { pc := PC.entry, obs := none }, t1 := { pc := PC.woken, obs := none} },
   { collected := [0, 1], num_clients := 2, published := none, notified := true, aggCount := 0, effCount := 0, t0 := { pc := PC.ready, obs := none }, t1 := { pc := PC.entry, obs := none} },
   { collected := [0, 1], num_clients := 2, published := none, notified := true, aggCount := 0, effCount := 0, t0 := { pc := PC.woken, obs := none }, t1 := { pc := PC.ready, obs := none} },
   { collected := [], num_clients := 2, published := some [0, 1], notified := true, aggCount := 1, effCount := 1, t0 := { pc := PC.entry, obs := none }, t1 := { pc := PC.done, obs := some [0, 1]} },
   { collected := [], num_clients := 2, published := some [1, 0], notified := true, aggCount := 1, effCount := 1, t0 := { pc := PC.done, obs := some [1, 0] }, t1 := { pc := PC.entry, obs := none} },
   { collected := [1, 0], num_clients := 2, published := none, notified := true, aggCount := 0, effCount := 0, t0 := { pc := PC.ready, obs := none }, t1 := { pc := PC.woken, obs := none} },
   { collected := [1, 0], num_clients := 2, published := none, notified := true, aggCount := 0, effCount := 0, t0 := { pc := PC.entry, obs := none }, t1 := { pc := PC.ready, obs := none} },
   { collected := [], num_clients := 2, published := some [0, 1], notified := true, aggCount := 1, effCount := 1, t0 := { pc := PC.done, obs := some [0, 1] }, t1 := { pc := PC.entry, obs := none} },
   { collected := [0, 1], num_clients := 2, published := none, notified := true, aggCount := 0, effCount := 0, t0 := { pc := PC.ready, obs := none }, t1 := { pc := PC.ready, obs := none} },
   { collected := [], num_clients := 2, published := some [0, 1], notified := true, aggCount := 1, effCount := 1, t0 := { pc := PC.woken, obs := none }, t1 := { pc := PC.done, obs := some [0, 1]} },
   { collected := [], num_clients := 2, published := some [1, 0], notified := true, aggCount := 1, effCount := 1, t0 := { pc := PC.done, obs := some [1, 0] }, t1 := { pc := PC.woken, obs := none} },
   { collected := [1, 0], num_clients := 2, published := none, notified := true, aggCount := 0, effCount := 0, t0 := { pc := PC.ready, obs := none }, t1 := { pc := PC.ready, obs := none} },
   { collected := [], num_clients := 2, published := some [1, 0], notified := true, aggCount := 1, effCount := 1, t0 := { pc := PC.entry, obs := none }, t1 := { pc := PC.done, obs := some [1, 0]} },
   { collected := [], num_clients := 2, published := some [0, 1], notified := true, aggCount := 1, effCount := 1, t0 := { pc := PC.done, obs := some [0, 1] }, t1 := { pc := PC.ready, obs := none} },
   { collected := [], num_clients := 2, published := some [0, 1], notified := true, aggCount := 1, effCount := 1, t0 := { pc := PC.ready, obs := none }, t1 := { pc := PC.done, obs := some [0, 1]} },
   { collected := [], num_clients := 2, published := some [1, 0], notified := true, aggCount := 1, effCount := 1, t0 := { pc := PC.done, obs := some [1, 0] }, t1 := { pc := PC.ready, obs := none} },
   { collected := [], num_clients := 2, published := some [1, 0], notified := true, aggCount := 1, effCount := 1, t0 := { pc := PC.ready, obs := none }, t1 := { pc := PC.done, obs := some [1, 0]} },
   { collected := [], num_clients := 2, published := some [0, 1], notified := true, aggCount := 2, effCount := 1, t0 := { pc := PC.done, obs := some [0, 1] }, t1 := { pc := PC.done, obs := some [0, 1]} },
   { collected := [], num_clients := 2, published := some [1, 0], notified := true, aggCount := 2, effCount := 1, t0 := { pc := PC.done, obs := some [1, 0] }, t1 := { pc := PC.done, obs := some [1, 0] } }]

/-- A termination measure that strictly decreases along every
transition taken from a reachable state. -/
def pcW : PC → Nat
  | PC.start => 10
  | PC.entry => 8
  | PC.waiting => 6
  | PC.woken => 5
  | PC.ready => 3
  | PC.done => 0

/-- Sum of the two threads' measures. -/
def measure (s : BarrierState) : Nat := pcW s.t0.pc + pcW s.t1.pc

/-! ## Sequences of registry operations -/

/-- One registry-touching operation of the servicer, with the values it
reads from its environment (current time, random draws). -/
inductive Op where
  | getSize (now : ℚ)
  | heartbeat (id : String) (now : ℚ)
  | getID (cands : List Nat) (now : ℚ)
  | sendBye (id : String)
deriving DecidableEq

/-- Apply one operation to the server state (keeping the state on the
failure paths: a raised `KeyError` leaves the fields untouched, and an
exhausted candidate stream in `_generate_ID` never returns). -/
def applyOp (s : ServerState) : Op → ServerState
  | Op.getSize now => (GetSize now s).1
  | Op.heartbeat id now =>
      match sendMessageHeartbeat id now s with
      | Except.ok s2 => s2
      | Except.error _ => s
  | Op.getID cands now =>
      match GetID cands now s with
      | some (s2, _) => s2
      | none => s
  | Op.sendBye id =>
      match SendBye id s with
      | Except.ok s2 => s2
      | Except.error _ => s

/-- Run a sequence of `GetID` calls (each with its own candidate stream
and call time), collecting the returned `(id, num)` pairs in order;
fails if any `_generate_ID` exhausts its stream. -/
def runGetIDs (s : ServerState) :
    List (List Nat × ℚ) → Option (ServerState × List (String × Nat))
  | [] => some (s, [])
  | (cands, now) :: rest =>
      match GetID cands now s with
      | none => none
      | some (s2, r) =>
          match runGetIDs s2 rest with
          | none => none
          | some (s3, rs) => some (s3, r :: rs)

variable {β : Type}

/-- The invariant of claim C9: the registry keys are distinct (a Python
dict cannot hold duplicate keys) and `id` is registered with a session
whose status is DEAD. -/
def DeadInv (id : String) (s : ServerState) : Prop :=
  (s.user_ids.map Prod.fst).Nodup ∧
  ∃ sess, List.lookup id s.user_ids = some sess ∧
    sess.status = STATUS_DEAD

lemma lookup_cons (k k2 : String) (v : β) (l : List (String × β)) :
    List.lookup k ((k2, v) :: l) =
      if k = k2 then some v else List.lookup k l := by
  by_cases h : k = k2
  · simp [List.lookup, h]
  · have hb : (k == k2) = false := beq_eq_false_iff_ne.mpr h
    simp [List.lookup, hb, h]

lemma odSet_cons (k2 : String) (v2 : β) (rest : List (String × β))
    (k : String) (v : β) :
    odSet ((k2, v2) :: rest) k v =
      if k2 = k then (k, v) :: rest else (k2, v2) :: odSet rest k v := rfl

lemma lookup_odSet_self (d : List (String × β)) (k : String) (v : β) :
    List.lookup k (odSet d k v) = some v := by
  induction d with
  | nil => simp [odSet, List.lookup]
  | cons e rest ih =>
      obtain ⟨k2, v2⟩ := e
      by_cases h : k2 = k
      · subst h
        simp [odSet_cons, lookup_cons]
      · rw [odSet_cons, if_neg h, lookup_cons, if_neg (fun hh => h hh.symm)]
        exact ih

lemma lookup_odSet_ne (d : List (String × β)) (k : String) (v : β)
    (k2 : String) (h : k2 ≠ k) :
    List.lookup k2 (odSet d k v) = List.lookup k2 d := by
  induction d with
  | nil => simp [odSet, lookup_cons, h]
  | cons e rest ih =>
      obtain ⟨k3, v3⟩ := e
      by_cases h2 : k3 = k
      · subst h2
        rw [odSet_cons, if_pos rfl, lookup_cons, lookup_cons,
          if_neg h, if_neg (fun hh => h (hh.trans rfl))]
      · rw [odSet_cons, if_neg h2, lookup_cons, lookup_cons]
        by_cases h3 : k2 = k3 <;> simp [h3, ih]

lemma mem_odSet (d : List (String × β)) (k : String) (v : β)
    (x : String × β) (hx : x ∈ odSet d k v) : x ∈ d ∨ x = (k, v) := by
  induction d with
  | nil => simpa [odSet] using hx
  | cons e rest ih =>
      obtain ⟨k3, v3⟩ := e
      by_cases h2 : k3 = k
      · rw [odSet_cons, if_pos h2] at hx
        rcases List.mem_cons.mp hx with h | h
        · exact Or.inr h
        · exact Or.inl (List.mem_cons_of_mem _ h)
      · rw [odSet_cons, if_neg h2] at hx
        rcases List.mem_cons.mp hx with h | h
        · exact Or.inl (by simp [h])
        · rcases ih h with h3 | h3
          · exact Or.inl (List.mem_cons_of_mem _ h3)
          · exact Or.inr h3

lemma lookup_eq_none_of_not_mem (d : List (String × β)) (k : String)
    (h : k ∉ d.map Prod.fst) : List.lookup k d = none := by
  induction d with
  | nil => simp [List.lookup]
  | cons e rest ih =>
      obtain ⟨k2, v2⟩ := e
      rw [List.map_cons] at h
      rw [lookup_cons, if_neg (fun hh => h (by simp [hh]))]
      exact ih (fun hh => h (List.mem_cons_of_mem _ hh))

lemma lookup_isSome_iff (d : List (String × β)) (k : String) :
    (List.lookup k d).isSome = true ↔ k ∈ d.map Prod.fst := by
  induction d with
  | nil => simp [List.lookup]
  | cons e rest ih =>
      obtain ⟨k2, v2⟩ := e
      by_cases h : k = k2 <;> simp [lookup_cons, h, ih]

lemma mem_of_lookup_eq_some (d : List (String × β)) (k : String) (v : β)
    (h : List.lookup k d = some v) : (k, v) ∈ d := by
  induction d with
  | nil => simp [List.lookup] at h
  | cons e rest ih =>
      obtain ⟨k2, v2⟩ := e
      by_cases h2 : k = k2
      · subst h2
        rw [lookup_cons, if_pos rfl] at h
        simp [Option.some_injective _ h]
      · rw [lookup_cons, if_neg h2] at h
        exact List.mem_cons_of_mem _ (ih h)

lemma lookup_accumEntry (avg : ParameterMap) (e : String × Tensor)
    (k : String) :
    List.lookup k (accumEntry avg e) =
      if containsBn e.1 = false ∧ k = e.1 then
        some (match List.lookup k avg with
              | none => e.2
              | some t => addT t e.2)
      else List.lookup k avg := by
  obtain ⟨n, p⟩ := e
  by_cases hbn : containsBn n
  · simp [accumEntry, hbn]
  · by_cases hk : k = n
    · subst hk
      simp only [accumEntry, hbn, Bool.false_eq_true, if_false]
      cases h : List.lookup k avg <;>
        simp [h, lookup_odSet_self, hbn]
    · simp only [accumEntry, hbn, Bool.false_eq_true, if_false]
      cases h : List.lookup n avg <;>
        simp [h, lookup_odSet_ne _ n _ k hk, hk, hbn]

lemma lookup_accumMap (m : ParameterMap) (avg : ParameterMap) (k : String)
    (hm : (m.map Prod.fst).Nodup) :
    List.lookup k (accumMap avg m) =
      if containsBn k = true then List.lookup k avg
      else
        match List.lookup k m with
        | none => List.lookup k avg
        | some p =>
            some (match List.lookup k avg with
                  | none => p
                  | some t => addT t p) := by
  induction m generalizing avg with
  | nil => cases hbn : containsBn k <;> simp [accumMap, List.lookup, hbn]
  | cons e rest ih =>
      obtain ⟨n, p⟩ := e
      rw [List.map_cons, List.nodup_cons] at hm
      have hstep : accumMap avg ((n, p) :: rest) =
          accumMap (accumEntry avg (n, p)) rest := rfl
      rw [hstep, ih _ hm.2, lookup_accumEntry]
      by_cases hbn : containsBn k
      · simp only [hbn, if_true]
        rw [if_neg]
        rintro ⟨hbn2, hk⟩
        rw [hk] at hbn
        rw [hbn] at hbn2
        exact Bool.true_eq_false.mp hbn2
      · simp only [hbn, Bool.false_eq_true, if_false]
        by_cases hk : k = n
        · subst hk
          have hnone : List.lookup k rest = none :=
            lookup_eq_none_of_not_mem rest k hm.1
          have hbn2 : containsBn k = false := Bool.not_eq_true _ ▸ hbn
          rw [hnone, lookup_cons, if_pos rfl, if_pos ⟨hbn2, rfl⟩]
        · rw [lookup_cons, if_neg hk, if_neg (fun hh => hk hh.2)]

lemma lookup_foldl_accumMap (ls : List ParameterMap) (avg : ParameterMap)
    (k : String) (hnd : ∀ m ∈ ls, (m.map Prod.fst).Nodup)
    (hbn : containsBn k = false) :
    List.lookup k (ls.foldl accumMap avg) =
      ls.foldl (sumStep k) (List.lookup k avg) := by
  induction ls generalizing avg with
  | nil => simp
  | cons m rest ih =>
      rw [List.foldl_cons, List.foldl_cons,
        ih _ (fun m2 hm2 => hnd m2 (List.mem_cons_of_mem _ hm2))]
      congr 1
      rw [lookup_accumMap m avg k (hnd m (List.mem_cons_self _ _)), hbn]
      simp only [Bool.false_eq_true, if_false, sumStep]
      cases List.lookup k m <;> cases List.lookup k avg <;> rfl

lemma foldl_sumStep_present (k : String) (ls : List ParameterMap)
    (h : ∀ m ∈ ls, k ∈ m.map Prod.fst) (t : Tensor) :
    ls.foldl (sumStep k) (some t) =
      some (ls.foldl (fun a m => addT a ((List.lookup k m).getD [])) t) := by
  induction ls generalizing t with
  | nil => simp
  | cons m rest ih =>
      obtain ⟨p, hp⟩ := Option.isSome_iff_exists.mp
        ((lookup_isSome_iff m k).mpr (h m (List.mem_cons_self _ _)))
      rw [List.foldl_cons, List.foldl_cons]
      rw [show sumStep k (some t) m = some (addT t p) by simp [sumStep, hp]]
      rw [ih (fun m2 hm2 => h m2 (List.mem_cons_of_mem _ hm2))]
      rw [hp]
      rfl

lemma length_addT (a b : Tensor) :
    (addT a b).length = min a.length b.length :=
  List.length_zipWith _ _ _

lemma getD_addT (a b : Tensor) (j : ℕ) (hja : j < a.length)
    (hjb : j < b.length) :
    (addT a b).getD j 0 = a.getD j 0 + b.getD j 0 := by
  induction a generalizing b j with
  | nil => simp at hja
  | cons x xs ih =>
      cases b with
      | nil => simp at hjb
      | cons y ys =>
          cases j with
          | zero => simp [addT]
          | succ j2 =>
              have h1 : j2 < xs.length := by simpa using hja
              have h2 : j2 < ys.length := by simpa using hjb
              simpa [addT] using ih ys j2 h1 h2

lemma length_divT (t : Tensor) (n : ℚ) : (divT t n).length = t.length :=
  List.length_map _ _

lemma getD_divT (t : Tensor) (n : ℚ) (j : ℕ) (hj : j < t.length) :
    (divT t n).getD j 0 = t.getD j 0 / n := by
  induction t generalizing j with
  | nil => simp at hj
  | cons x xs ih =>
      cases j with
      | zero => simp [divT]
      | succ j2 =>
          have h1 : j2 < xs.length := by simpa using hj
          simpa [divT] using ih j2 h1

lemma foldl_addVals (ls : List ParameterMap) (k : String) (t : Tensor)
    (L : ℕ) (ht : t.length = L)
    (hlen : ∀ m ∈ ls, ((List.lookup k m).getD []).length = L) :
    (ls.foldl (fun a m => addT a ((List.lookup k m).getD [])) t).length = L ∧
    ∀ j, j < L →
      (ls.foldl (fun a m => addT a ((List.lookup k m).getD [])) t).getD j 0 =
        t.getD j 0 +
          (ls.map (fun m => ((List.lookup k m).getD []).getD j 0)).sum := by
  induction ls generalizing t with
  | nil => simp [ht]
  | cons m rest ih =>
      have hv : ((List.lookup k m).getD []).length = L :=
        hlen m (List.mem_cons_self _ _)
      have ht2 : (addT t ((List.lookup k m).getD [])).length = L := by
        rw [length_addT, ht, hv, min_self]
      obtain ⟨ihlen, ihget⟩ := ih (addT t ((List.lookup k m).getD [])) ht2
        (fun m2 hm2 => hlen m2 (List.mem_cons_of_mem _ hm2))
      constructor
      · rw [List.foldl_cons]
        exact ihlen
      · intro j hj
        rw [List.foldl_cons, ihget j hj,
          getD_addT t _ j (ht ▸ hj) (hv ▸ hj), List.map_cons,
          List.sum_cons, add_assoc]

lemma lookup_map_val {β γ : Type} (d : List (String × β)) (f : β → γ)
    (k : String) :
    List.lookup k (d.map (fun e => (e.1, f e.2))) =
      (List.lookup k d).map f := by
  induction d with
  | nil => simp [List.lookup]
  | cons e rest ih =>
      obtain ⟨k2, v2⟩ := e
      by_cases h : k = k2 <;> simp [lookup_cons, h, ih]

lemma mem_accumEntry (avg : ParameterMap) (e : String × Tensor)
    (x : String × Tensor) (h : x ∈ accumEntry avg e) :
    x ∈ avg ∨ (x.1 = e.1 ∧ containsBn e.1 = false) := by
  obtain ⟨n, p⟩ := e
  by_cases hbn : containsBn n
  · simp only [accumEntry, hbn, if_true] at h
    exact Or.inl h
  · simp only [accumEntry, hbn, Bool.false_eq_true, if_false] at h
    have hbn2 : containsBn n = false := Bool.not_eq_true _ ▸ hbn
    cases h2 : List.lookup n avg with
    | none =>
        rw [h2] at h
        rcases mem_odSet _ _ _ _ h with h3 | h3
        · exact Or.inl h3
        · exact Or.inr ⟨by simp [h3], hbn2⟩
    | some t =>
        rw [h2] at h
        rcases mem_odSet _ _ _ _ h with h3 | h3
        · exact Or.inl h3
        · exact Or.inr ⟨by simp [h3], hbn2⟩

lemma mem_accumMap (m : ParameterMap) (avg : ParameterMap)
    (x : String × Tensor) (h : x ∈ accumMap avg m) :
    x ∈ avg ∨ ∃ e ∈ m, x.1 = e.1 ∧ containsBn e.1 = false := by
  induction m generalizing avg with
  | nil => exact Or.inl (by simpa [accumMap] using h)
  | cons e2 rest2 ih =>
      have h2 : x ∈ accumMap (accumEntry avg e2) rest2 := h
      rcases ih _ h2 with h3 | h3
      · rcases mem_accumEntry _ _ _ h3 with h4 | h4
        · exact Or.inl h4
        · exact Or.inr ⟨e2, List.mem_cons_self _ _, h4⟩
      · obtain ⟨e3, he3, hx⟩ := h3
        exact Or.inr ⟨e3, List.mem_cons_of_mem _ he3, hx⟩

lemma mem_foldl_accumMap (ls : List ParameterMap) (avg : ParameterMap)
    (x : String × Tensor) (h : x ∈ ls.foldl accumMap avg) :
    x ∈ avg ∨ ∃ m ∈ ls, ∃ e ∈ m, x.1 = e.1 ∧ containsBn e.1 = false := by
  induction ls generalizing avg with
  | nil => exact Or.inl (by simpa using h)
  | cons m rest ih =>
      rw [List.foldl_cons] at h
      rcases ih _ h with h2 | h2
      · rcases mem_accumMap _ _ _ h2 with h3 | h3
        · exact Or.inl h3
        · obtain ⟨e3, he3, hx⟩ := h3
          exact Or.inr ⟨m, List.mem_cons_self _ _, e3, he3, hx⟩
      · obtain ⟨m2, hm2, e3, he3, hx⟩ := h2
        exact Or.inr ⟨m2, List.mem_cons_of_mem _ hm2, e3, he3, hx⟩

/-- C2: for every non-empty list of parameter maps sharing the same key
set `K` (each map keyed without duplicates, with a fixed tensor shape
`sh` per name), `_compute_global_average` succeeds and produces a map
that omits every name matching the excluded-field predicate (name
contains the substring "bn") and maps every other name of `K` to the
elementwise arithmetic mean of that name's values across all input
maps, dividing by the actual number of maps collected (`maps.length`),
not the configured quorum target. -/
theorem c2_computeGlobalAverage_mean (maps : List ParameterMap)
    (K : List String) (sh : String → Nat)
    (hne : maps ≠ [])
    (hnd : ∀ m ∈ maps, (m.map Prod.fst).Nodup)
    (hkeys : ∀ m ∈ maps, ∀ k, k ∈ m.map Prod.fst ↔ k ∈ K)
    (hsh : ∀ m ∈ maps, ∀ e ∈ m, (Prod.snd e).length = sh (Prod.fst e)) :
    ∃ res, computeGlobalAverage maps = some res ∧
      (∀ e ∈ res, containsBn e.1 = false ∧ e.1 ∈ K) ∧
      (∀ k, containsBn k = true → List.lookup k res = none) ∧
      (∀ k, k ∈ K → containsBn k = false →
        ∃ t, List.lookup k res = some t ∧ t.length = sh k ∧
          ∀ j, j < sh k →
            t.getD j 0 =
              (maps.map
                  (fun m => ((List.lookup k m).getD []).getD j 0)).sum /
                (maps.length : ℚ)) := by
  obtain ⟨m0, rest, rfl⟩ : ∃ m0 rest, maps = m0 :: rest := by
    cases maps with
    | nil => exact absurd rfl hne
    | cons m0 rest => exact ⟨m0, rest, rfl⟩
  refine ⟨(sumDicts (m0 :: rest)).map
      (fun e => (e.1, divT e.2 ((m0 :: rest).length : ℚ))), ?_, ?_, ?_, ?_⟩
  · simp [computeGlobalAverage]
  · -- every entry of the result is bn-free and its name is in K
    intro e he
    obtain ⟨e0, he0, rfl⟩ := List.mem_map.mp he
    rcases mem_foldl_accumMap _ _ _ he0 with h | h
    · simp at h
    · obtain ⟨m, hm, e1, he1, hx, hbn⟩ := h
      refine ⟨by simpa [hx] using hbn, ?_⟩
      have : e1.1 ∈ m.map Prod.fst := List.mem_map_of_mem Prod.fst he1
      simpa [hx] using (hkeys m hm e1.1).mp this
  · -- bn names are omitted
    intro k hk
    cases h : List.lookup k
        ((sumDicts (m0 :: rest)).map
          (fun e => (e.1, divT e.2 ((m0 :: rest).length : ℚ)))) with
    | none => rfl
    | some v =>
        exfalso
        have hmem := mem_of_lookup_eq_some _ _ _ h
        obtain ⟨e0, he0, he⟩ := List.mem_map.mp hmem
        have := (mem_foldl_accumMap _ _ _ he0)
        rcases this with h2 | h2
        · simp at h2
        · obtain ⟨m, hm, e1, he1, hx, hbn⟩ := h2
          have hk1 : e0.1 = k := congrArg Prod.fst he
          rw [hx] at hk1
          rw [hk1] at hbn
          rw [hk] at hbn
          exact Bool.true_eq_false.mp hbn
  · -- the mean clause
    intro k hkK hbn
    have hpres : ∀ m ∈ (m0 :: rest), k ∈ m.map Prod.fst :=
      fun m hm => (hkeys m hm k).mpr hkK
    obtain ⟨v0, hv0⟩ := Option.isSome_iff_exists.mp
      ((lookup_isSome_iff m0 k).mpr (hpres m0 (List.mem_cons_self _ _)))
    have hv0len : v0.length = sh k := by
      have := hsh m0 (List.mem_cons_self _ _) (k, v0)
        (mem_of_lookup_eq_some _ _ _ hv0)
      simpa using this
    have hlen : ∀ m ∈ rest, ((List.lookup k m).getD []).length = sh k := by
      intro m hm
      obtain ⟨v, hv⟩ := Option.isSome_iff_exists.mp
        ((lookup_isSome_iff m k).mpr (hpres m (List.mem_cons_of_mem _ hm)))
      rw [hv]
      have := hsh m (List.mem_cons_of_mem _ hm) (k, v)
        (mem_of_lookup_eq_some _ _ _ hv)
      simpa using this
    have hsum : List.lookup k (sumDicts (m0 :: rest)) =
        some (rest.foldl (fun a m => addT a ((List.lookup k m).getD [])) v0) := by
      have h1 : List.lookup k (sumDicts (m0 :: rest)) =
          (m0 :: rest).foldl (sumStep k) (List.lookup k ([] : ParameterMap)) :=
        lookup_foldl_accumMap (m0 :: rest) [] k hnd hbn
      rw [h1]
      have h2 : List.lookup k ([] : ParameterMap) = none := rfl
      rw [h2, List.foldl_cons,
        show sumStep k none m0 = some v0 by simp [sumStep, hv0]]
      exact foldl_sumStep_present k rest
        (fun m hm => hpres m (List.mem_cons_of_mem _ hm)) v0
    obtain ⟨hSlen, hSget⟩ := foldl_addVals rest k v0 (sh k) hv0len hlen
    refine ⟨divT (rest.foldl (fun a m => addT a ((List.lookup k m).getD [])) v0)
        (((m0 :: rest).length : ℕ) : ℚ), ?_, ?_, ?_⟩
    · rw [lookup_map_val (sumDicts (m0 :: rest))
        (fun t => divT t (((m0 :: rest).length : ℕ) : ℚ)) k, hsum]
      rfl
    · rw [length_divT]
      exact hSlen
    · intro j hj
      rw [getD_divT _ _ j (hSlen ▸ hj), hSget j hj, List.map_cons,
        List.sum_cons, hv0]
      simp

/-- C2, witness: the spec's concrete instance — aggregating `{a: 2.0}`
and `{a: 4.0}` with no excluded names yields `{a: 3.0}` — with the
theorem applied at that input. -/
theorem c2_witness :
    computeGlobalAverage [[("a", [2])], [("a", [4])]] = some [("a", [3])] ∧
    (∃ res, computeGlobalAverage [[("a", [2])], [("a", [4])]] = some res ∧
      (∀ e ∈ res, containsBn e.1 = false ∧ e.1 ∈ ["a"]) ∧
      (∀ k, containsBn k = true → List.lookup k res = none) ∧
      (∀ k, k ∈ ["a"] → containsBn k = false →
        ∃ t, List.lookup k res = some t ∧ t.length = 1 ∧
          ∀ j, j < 1 →
            t.getD j 0 =
              (([[("a", [2])], [("a", [4])]] : List ParameterMap).map
                  (fun m => ((List.lookup k m).getD []).getD j 0)).sum /
                (([[("a", [2])], [("a", [4])]] : List ParameterMap).length :
                  ℚ))) :=
  ⟨by
    norm_num [computeGlobalAverage, sumDicts, accumMap, accumEntry, odSet,
      containsBn, hasSubstr, addT, divT, List.lookup, List.isPrefixOf],
    c2_computeGlobalAverage_mean [[("a", [2])], [("a", [4])]] ["a"]
      (fun _ => 1) (by decide) (by decide)
      (by
        intro m hm k
        rcases List.mem_cons.mp hm with rfl | hm2
        · exact Iff.rfl
        · rcases List.mem_cons.mp hm2 with rfl | hm3
          · exact Iff.rfl
          · simp at hm3)
      (by decide)⟩

lemma aliveCount_sweep (now : ℚ) (l : List (String × Session)) :
    aliveCount (l.map (fun e => (e.1, sweepSession now e.2))) =
      (l.filter (fun e =>
        e.2.status = STATUS_ALIVE ∧ now - e.2.last_active ≤ 300)).length := by
  unfold aliveCount
  rw [List.filter_map, List.length_map]
  congr 1
  refine List.filter_congr (fun e _ => ?_)
  by_cases hst : now - e.2.last_active > 300
  · have hle : ¬ now - e.2.last_active ≤ 300 := not_le.mpr hst
    simp [sweepSession, hst, hle, STATUS_ALIVE, STATUS_DEAD, Function.comp]
  · have hle : now - e.2.last_active ≤ 300 := le_of_not_lt hst
    simp [sweepSession, hst, hle, Function.comp]

/-- C6: `GetSize` marks every session idle strictly longer than 300
seconds DEAD while keeping it registered (the key list is unchanged),
leaves the other sessions untouched, and returns the number of sessions
that are ALIVE and not newly marked; `SendBye` still succeeds for every
registered id, in particular for a session just marked DEAD. -/
theorem c6_getSize_sweep_count (now : ℚ) (s : ServerState) :
    ((GetSize now s).1.user_ids.map Prod.fst = s.user_ids.map Prod.fst) ∧
    (∀ e ∈ s.user_ids, now - e.2.last_active > 300 →
      (e.1, { e.2 with status := STATUS_DEAD }) ∈ (GetSize now s).1.user_ids) ∧
    (∀ e ∈ s.user_ids, ¬ now - e.2.last_active > 300 →
      e ∈ (GetSize now s).1.user_ids) ∧
    ((GetSize now s).2 =
      (s.user_ids.filter (fun e =>
        e.2.status = STATUS_ALIVE ∧ now - e.2.last_active ≤ 300)).length) ∧
    (∀ id, id ∈ (GetSize now s).1.user_ids.map Prod.fst →
      ∃ s2, SendBye id (GetSize now s).1 = Except.ok s2) := by
  refine ⟨?_, ?_, ?_, ?_, ?_⟩
  · show (s.user_ids.map (fun e => (e.1, sweepSession now e.2))).map Prod.fst
        = s.user_ids.map Prod.fst
    rw [List.map_map]
    rfl
  · intro e he hst
    have : (fun e2 => (e2.1, sweepSession now e2.2)) e =
        (e.1, { e.2 with status := STATUS_DEAD }) := by
      simp [sweepSession, hst]
    exact this ▸ List.mem_map_of_mem _ he
  · intro e he hst
    have : (fun e2 => (e2.1, sweepSession now e2.2)) e = e := by
      simp [sweepSession, hst]
    exact this ▸ List.mem_map_of_mem _ he
  · exact aliveCount_sweep now s.user_ids
  · intro id hid
    refine ⟨{ (GetSize now s).1 with
      user_ids := (GetSize now s).1.user_ids.eraseP (fun e => e.1 == id) }, ?_⟩
    unfold SendBye
    rw [if_pos ((lookup_isSome_iff _ _).mpr hid)]

/-- C6, witness: the count conjunct of the theorem applied at a
concrete registry holding one stale and one fresh client. -/
theorem c6_witness :
    (GetSize 1000
        ⟨[("0x1", ⟨1, STATUS_ALIVE, 0⟩), ("0x2", ⟨2, STATUS_ALIVE, 900⟩)],
          [], none, []⟩).2 =
      (([("0x1", ⟨1, STATUS_ALIVE, 0⟩),
          ("0x2", ⟨2, STATUS_ALIVE, (900 : ℚ)⟩)] :
            List (String × Session)).filter (fun e =>
        e.2.status = STATUS_ALIVE ∧ 1000 - e.2.last_active ≤ 300)).length :=
  (c6_getSize_sweep_count 1000
    ⟨[("0x1", ⟨1, STATUS_ALIVE, 0⟩), ("0x2", ⟨2, STATUS_ALIVE, 900⟩)],
      [], none, []⟩).2.2.2.1

/-- C10: invoking `_compute_global_average` while the collected set is
empty returns `None` without raising an error and without modifying the
published snapshot: the state, in particular `state_dict`, is exactly
what it was before the call. -/
theorem c10_empty_aggregation_noop (s : ServerState)
    (h : s.local_averages = []) :
    computeGlobalAverage s.local_averages = none ∧
    computeGlobalAverageStep s = s ∧
    (computeGlobalAverageStep s).state_dict = s.state_dict := by
  have h1 : computeGlobalAverage s.local_averages = none := by
    simp [h, computeGlobalAverage]
  exact ⟨h1, by simp [computeGlobalAverageStep, h1], by
    simp [computeGlobalAverageStep, h1]⟩

/-- C10, witness: the theorem applied at a state with an empty
collected set and a previously published aggregate. -/
theorem c10_witness :
    computeGlobalAverage
        ((⟨[], [], some [("a", [7])], [("w", [1])]⟩ : ServerState)).local_averages = none ∧
    computeGlobalAverageStep ⟨[], [], some [("a", [7])], [("w", [1])]⟩ =
      ⟨[], [], some [("a", [7])], [("w", [1])]⟩ ∧
    (computeGlobalAverageStep ⟨[], [], some [("a", [7])], [("w", [1])]⟩).state_dict =
      (⟨[], [], some [("a", [7])], [("w", [1])]⟩ : ServerState).state_dict :=
  c10_empty_aggregation_noop ⟨[], [], some [("a", [7])], [("w", [1])]⟩ rfl

/-- C5, counterexample to the claim as stated: with no round ever
completed (`state_dict` still `None`), `GetModel` does not return a
designated unset result — it returns the server's initial model's
non-empty parameter map. -/
theorem c5_counterexample :
    GetModel ⟨[], [], none, [("w", [1])]⟩ = [("w", [1])] ∧
    ([("w", [1])] : ParameterMap) ≠ [] ∧
    (⟨[], [], none, [("w", [1])]⟩ : ServerState).state_dict = none := by
  refine ⟨rfl, by simp, rfl⟩

/-- C5 (amended): if no round has ever completed, `GetModel` serves the
initial model's own parameter map (a baseline, not an unset marker);
once a round has completed with a non-empty aggregate it serves the
most recently published aggregate; a published empty aggregate also
falls back to the initial model (Python truthiness of the dict). -/
theorem c5_getModel_baseline_or_aggregate (s : ServerState) :
    (s.state_dict = none → GetModel s = s.model_params) ∧
    (∀ d, s.state_dict = some d → d ≠ [] → GetModel s = d) ∧
    (s.state_dict = some [] → GetModel s = s.model_params) := by
  refine ⟨fun h => ?_, fun d hd hne2 => ?_, fun h => ?_⟩
  · simp [GetModel, h]
  · cases d with
    | nil => exact absurd rfl hne2
    | cons e rest => simp [GetModel, hd]
  · simp [GetModel, h]

/-- C5, witness: the amended theorem applied at a state with a
published non-empty aggregate. -/
theorem c5_witness :
    GetModel ⟨[], [], some [("a", [3])], [("w", [1])]⟩ = [("a", [3])] :=
  (c5_getModel_baseline_or_aggregate
    ⟨[], [], some [("a", [3])], [("w", [1])]⟩).2.1 [("a", [3])] rfl (by simp)

/-- C8: `SendMessage` with an id that is not currently registered fails
(the subscripting of `self.user_ids` at line 112 raises `KeyError`,
surfaced to the caller as the UnknownClient failure) before any
parameter map is appended; with a registered id its first step updates
exactly that session's last-active timestamp, leaving its status and
ordinal, every other session, and the rest of the state unchanged. -/
theorem c8_submit_unknown_or_heartbeat (s : ServerState) (id : String)
    (pm : ParameterMap) (now : ℚ) :
    (List.lookup id s.user_ids = none →
      sendMessageHeartbeat id now s = Except.error SubmitError.unknownClient ∧
      sendMessageArrive id pm now s = Except.error SubmitError.unknownClient) ∧
    (∀ sess, List.lookup id s.user_ids = some sess →
      sendMessageHeartbeat id now s =
        Except.ok { s with
          user_ids := odSet s.user_ids id { sess with last_active := now } } ∧
      List.lookup id (odSet s.user_ids id { sess with last_active := now }) =
        some { user_num := sess.user_num, status := sess.status,
               last_active := now } ∧
      (∀ id2, id2 ≠ id →
        List.lookup id2 (odSet s.user_ids id { sess with last_active := now }) =
          List.lookup id2 s.user_ids) ∧
      sendMessageArrive id pm now s =
        Except.ok { s with
          user_ids := odSet s.user_ids id { sess with last_active := now },
          local_averages := s.local_averages ++ [pm] }) := by
  constructor
  · intro h
    exact ⟨by simp [sendMessageHeartbeat, h],
      by simp [sendMessageArrive, sendMessageHeartbeat, h]⟩
  · intro sess h
    refine ⟨by simp [sendMessageHeartbeat, h], ?_, ?_, ?_⟩
    · rw [lookup_odSet_self]
    · intro id2 h2
      exact lookup_odSet_ne _ _ _ _ h2
    · simp [sendMessageArrive, sendMessageHeartbeat, h]

/-- C8, witness: the theorem applied at a concrete registered
client. -/
theorem c8_witness :
    sendMessageHeartbeat "0x1" 5 ⟨[("0x1", ⟨1, STATUS_ALIVE, 0⟩)], [], none, []⟩ =
      Except.ok { (⟨[("0x1", ⟨1, STATUS_ALIVE, 0⟩)], [], none, []⟩ : ServerState) with
        user_ids := odSet [("0x1", ⟨1, STATUS_ALIVE, 0⟩)] "0x1"
          { (⟨1, STATUS_ALIVE, 0⟩ : Session) with last_active := 5 } } ∧
    List.lookup "0x1" (odSet [("0x1", ⟨1, STATUS_ALIVE, 0⟩)] "0x1"
        { (⟨1, STATUS_ALIVE, 0⟩ : Session) with last_active := 5 }) =
      some { user_num := 1, status := STATUS_ALIVE, last_active := 5 } ∧
    (∀ id2, id2 ≠ "0x1" →
      List.lookup id2 (odSet [("0x1", ⟨1, STATUS_ALIVE, 0⟩)] "0x1"
          { (⟨1, STATUS_ALIVE, 0⟩ : Session) with last_active := 5 }) =
        List.lookup id2 [("0x1", (⟨1, STATUS_ALIVE, 0⟩ : Session))]) ∧
    sendMessageArrive "0x1" [("a", [1])] 5
        ⟨[("0x1", ⟨1, STATUS_ALIVE, 0⟩)], [], none, []⟩ =
      Except.ok { (⟨[("0x1", ⟨1, STATUS_ALIVE, 0⟩)], [], none, []⟩ : ServerState) with
        user_ids := odSet [("0x1", ⟨1, STATUS_ALIVE, 0⟩)] "0x1"
          { (⟨1, STATUS_ALIVE, 0⟩ : Session) with last_active := 5 },
        local_averages := [] ++ [[("a", [1])]] } :=
  (c8_submit_unknown_or_heartbeat
    ⟨[("0x1", ⟨1, STATUS_ALIVE, 0⟩)], [], none, []⟩ "0x1" [("a", [1])] 5).2
    ⟨1, STATUS_ALIVE, 0⟩ rfl

/-- C4, counterexample to the claim as stated: a client that has
already contributed to the open round submits again, and the second
call succeeds with its parameter map appended to the collected set —
there is no DuplicateSubmission failure in the code. -/
theorem c4_counterexample :
    sendMessageArrive "0x1" [("a", [2])] 1
        ⟨[("0x1", ⟨1, STATUS_ALIVE, 0⟩)], [], none, []⟩ =
      Except.ok ⟨[("0x1", ⟨1, STATUS_ALIVE, 1⟩)], [[("a", [2])]], none, []⟩ ∧
    sendMessageArrive "0x1" [("a", [4])] 2
        ⟨[("0x1", ⟨1, STATUS_ALIVE, 1⟩)], [[("a", [2])]], none, []⟩ =
      Except.ok ⟨[("0x1", ⟨1, STATUS_ALIVE, 2⟩)],
        [[("a", [2])], [("a", [4])]], none, []⟩ := by
  constructor <;> rfl

/-- C4 (amended): `SendMessage` performs no duplicate check: a second
submission by the same registered client before its round closes is not
rejected; both calls succeed and both parameter maps end up in the
round's collected set, double-counting that client. -/
theorem c4_duplicate_submission_appended (s : ServerState) (id : String)
    (pm1 pm2 : ParameterMap) (now1 now2 : ℚ) (sess : Session)
    (h : List.lookup id s.user_ids = some sess) :
    ∃ s1 s2, sendMessageArrive id pm1 now1 s = Except.ok s1 ∧
      sendMessageArrive id pm2 now2 s1 = Except.ok s2 ∧
      s2.local_averages = s.local_averages ++ [pm1, pm2] := by
  refine ⟨{ s with
      user_ids := odSet s.user_ids id { sess with last_active := now1 },
      local_averages := s.local_averages ++ [pm1] },
    { s with
      user_ids := odSet (odSet s.user_ids id { sess with last_active := now1 })
        id { sess with last_active := now2 },
      local_averages := (s.local_averages ++ [pm1]) ++ [pm2] }, ?_, ?_, ?_⟩
  · simp [sendMessageArrive, sendMessageHeartbeat, h]
  · have h2 : List.lookup id
        (odSet s.user_ids id { sess with last_active := now1 }) =
        some { sess with last_active := now1 } := lookup_odSet_self _ _ _
    simp [sendMessageArrive, sendMessageHeartbeat, h2]
  · simp

/-- C4, witness: the amended theorem applied at a concrete registered
client submitting twice. -/
theorem c4_witness :
    ∃ s1 s2,
      sendMessageArrive "0x1" [("a", [2])] 1
          ⟨[("0x1", ⟨1, STATUS_ALIVE, 0⟩)], [], none, []⟩ = Except.ok s1 ∧
      sendMessageArrive "0x1" [("a", [4])] 2 s1 = Except.ok s2 ∧
      s2.local_averages =
        (⟨[("0x1", ⟨1, STATUS_ALIVE, 0⟩)], [], none, []⟩ : ServerState).local_averages
          ++ [[("a", [2])], [("a", [4])]] :=
  c4_duplicate_submission_appended
    ⟨[("0x1", ⟨1, STATUS_ALIVE, 0⟩)], [], none, []⟩ "0x1"
    [("a", [2])] [("a", [4])] 1 2 ⟨1, STATUS_ALIVE, 0⟩ rfl

lemma generate_ID_fresh (u : List (String × Session)) (cands : List Nat)
    (rid : String) (h : generate_ID u cands = some rid) :
    List.lookup rid u = none := by
  induction cands with
  | nil => simp [generate_ID] at h
  | cons c rest ih =>
      by_cases h2 : (List.lookup (hexStr c) u).isSome
      · rw [generate_ID, if_pos h2] at h
        exact ih h
      · rw [generate_ID, if_neg h2] at h
        cases h
        exact Option.not_isSome_iff_eq_none.mp h2

lemma lookup_append_left {β : Type} (l1 l2 : List (String × β)) (k : String)
    (v : β) (h : List.lookup k l1 = some v) :
    List.lookup k (l1 ++ l2) = some v := by
  induction l1 with
  | nil => simp [List.lookup] at h
  | cons e rest ih =>
      obtain ⟨k2, v2⟩ := e
      by_cases h2 : k = k2
      · subst h2
        rw [lookup_cons, if_pos rfl] at h
        rw [List.cons_append, lookup_cons, if_pos rfl]
        exact h
      · rw [lookup_cons, if_neg h2] at h
        rw [List.cons_append, lookup_cons, if_neg h2]
        exact ih h

/-- C7: every completed sequence of `GetID` calls returns pairwise
distinct ids that are also distinct from every id registered at the
start (each candidate id is checked against the registered set and
regenerated on collision, so a returned id is never already
registered); with no deregistration intervening the returned ordinals
are consecutive, and from an empty registry they are exactly 1..k in
registration order. -/
theorem c7_register_distinct_ids_ordinals (calls : List (List Nat × ℚ))
    (s0 sfin : ServerState) (res : List (String × Nat))
    (hnd : (s0.user_ids.map Prod.fst).Nodup)
    (h : runGetIDs s0 calls = some (sfin, res)) :
    ((s0.user_ids.map Prod.fst) ++ res.map Prod.fst).Nodup ∧
    res.map Prod.snd =
      List.range' (s0.user_ids.length + 1) calls.length ∧
    (s0.user_ids = [] → res.map Prod.snd = List.range' 1 calls.length) := by
  induction calls generalizing s0 res with
  | nil =>
      rw [runGetIDs] at h
      cases h
      exact ⟨by simpa using hnd, by simp, fun h0 => by simp⟩
  | cons call rest ih =>
      obtain ⟨cands, now⟩ := call
      cases hg : generate_ID s0.user_ids cands with
      | none =>
          simp only [runGetIDs, GetID, hg] at h
          exact Option.noConfusion h
      | some rid =>
          cases hrun : runGetIDs
              { s0 with user_ids := s0.user_ids ++
                  [(rid, { user_num := s0.user_ids.length + 1,
                           status := STATUS_ALIVE, last_active := now })] }
              rest with
          | none =>
              simp only [runGetIDs, GetID, hg, hrun] at h
              exact Option.noConfusion h
          | some p =>
              obtain ⟨s3, rs⟩ := p
              simp only [runGetIDs, GetID, hg, hrun, Option.some.injEq,
                Prod.mk.injEq] at h
              obtain ⟨hs, hr⟩ := h
              subst hs
              subst hr
              have hfresh : rid ∉ s0.user_ids.map Prod.fst := by
                intro hmem
                have h4 := (lookup_isSome_iff s0.user_ids rid).mpr hmem
                rw [generate_ID_fresh _ _ _ hg] at h4
                simp at h4
              have hnd2 : (({ s0 with user_ids := s0.user_ids ++
                  [(rid, { user_num := s0.user_ids.length + 1,
                           status := STATUS_ALIVE,
                           last_active := now })] } :
                    ServerState).user_ids.map Prod.fst).Nodup := by
                show ((s0.user_ids ++ _).map Prod.fst).Nodup
                rw [List.map_append]
                refine hnd.append (List.nodup_singleton rid) ?_
                intro a ha hb
                simp at hb
                subst hb
                exact hfresh ha
              obtain ⟨ihnd, ihord, _⟩ := ih _ _ hnd2 hrun
              rw [show ({ s0 with user_ids := s0.user_ids ++
                  [(rid, { user_num := s0.user_ids.length + 1,
                           status := STATUS_ALIVE,
                           last_active := now })] } :
                    ServerState).user_ids = s0.user_ids ++
                  [(rid, { user_num := s0.user_ids.length + 1,
                           status := STATUS_ALIVE,
                           last_active := now })] from rfl,
                List.map_append] at ihnd
              have hlen : ({ s0 with user_ids := s0.user_ids ++
                  [(rid, { user_num := s0.user_ids.length + 1,
                           status := STATUS_ALIVE,
                           last_active := now })] } :
                    ServerState).user_ids.length =
                  s0.user_ids.length + 1 := by simp
              rw [hlen] at ihord
              refine ⟨by simpa using ihnd, ?_, ?_⟩
              · simp only [List.map_cons, ihord, List.length_cons,
                  List.range'_succ]
              · intro h0
                simp only [h0, List.length_nil] at ihord
                simp only [List.map_cons, ihord, List.length_cons,
                  List.range'_succ]
                simp [h0]

/-- C7, witness: two registrations from an empty registry — the second
forced through a collision with the first id before regenerating —
yield distinct ids and ordinals 1, 2. -/
theorem c7_witness :
    (((⟨[], [], none, []⟩ : ServerState).user_ids.map Prod.fst) ++
        [("0x5", 1), ("0x6", 2)].map
          (Prod.fst (α := String) (β := Nat))).Nodup ∧
    ([("0x5", 1), ("0x6", 2)].map
        (Prod.snd (α := String) (β := Nat))) =
      List.range' ((⟨[], [], none, []⟩ : ServerState).user_ids.length + 1)
        ([([5], (0 : ℚ)), ([5, 6], 1)].length) ∧
    ((⟨[], [], none, []⟩ : ServerState).user_ids = [] →
      [("0x5", 1), ("0x6", 2)].map (Prod.snd (α := String) (β := Nat)) =
        List.range' 1 ([([5], (0 : ℚ)), ([5, 6], 1)].length)) :=
  c7_register_distinct_ids_ordinals [([5], 0), ([5, 6], 1)]
    ⟨[], [], none, []⟩
    ⟨[("0x5", ⟨1, STATUS_ALIVE, 0⟩), ("0x6", ⟨2, STATUS_ALIVE, 1⟩)],
      [], none, []⟩
    [("0x5", 1), ("0x6", 2)] (by decide) (by decide)

lemma keys_odSet_of_mem {β : Type} (d : List (String × β)) (k : String)
    (v : β) (h : k ∈ d.map Prod.fst) :
    (odSet d k v).map Prod.fst = d.map Prod.fst := by
  induction d with
  | nil => simp at h
  | cons e rest ih =>
      obtain ⟨k2, v2⟩ := e
      by_cases h2 : k2 = k
      · subst h2
        rw [odSet_cons, if_pos rfl]
        simp
      · rw [odSet_cons, if_neg h2, List.map_cons, List.map_cons]
        congr 1
        rw [List.map_cons] at h
        rcases List.mem_cons.mp h with h3 | h3
        · exact absurd h3.symm h2
        · exact ih h3

lemma lookup_eraseP_ne {β : Type} (d : List (String × β)) (k k2 : String)
    (h : ¬ k = k2) :
    List.lookup k (d.eraseP (fun e => e.1 == k2)) = List.lookup k d := by
  induction d with
  | nil => rfl
  | cons e rest ih =>
      obtain ⟨k3, v3⟩ := e
      rw [List.eraseP_cons]
      by_cases h3 : k3 = k2
      · have hk3 : ¬ k = k3 := fun hh => h (hh.trans h3)
        simp only [show ((k3, v3).1 == k2) = true from by simp [h3],
          Bool.cond_true]
        rw [lookup_cons, if_neg hk3]
      · simp only [show ((k3, v3).1 == k2) = false from by simp [h3],
          Bool.cond_false]
        rw [lookup_cons, lookup_cons]
        by_cases h4 : k = k3 <;> simp [h4, ih]

lemma lookup_eq_of_mem_nodup {β : Type} (l : List (String × β)) (k : String)
    (v : β) (hnd : (l.map Prod.fst).Nodup) (h : (k, v) ∈ l) :
    List.lookup k l = some v := by
  induction l with
  | nil => simp at h
  | cons e rest ih =>
      obtain ⟨k2, v2⟩ := e
      rw [List.map_cons, List.nodup_cons] at hnd
      rcases List.mem_cons.mp h with h2 | h2
      · obtain ⟨hk, hv⟩ := Prod.mk.inj h2
        subst hk
        rw [lookup_cons, if_pos rfl, hv]
      · by_cases h3 : k = k2
        · subst h3
          exact absurd (List.mem_map_of_mem Prod.fst h2) hnd.1
        · rw [lookup_cons, if_neg h3]
          exact ih hnd.2 h2

lemma applyOp_preserves_dead (id : String) (s : ServerState) (op : Op)
    (hop : op ≠ Op.sendBye id) (h : DeadInv id s) :
    DeadInv id (applyOp s op) := by
  obtain ⟨hnd, sess, hl, hd⟩ := h
  cases op with
  | getSize now =>
      refine ⟨?_, sweepSession now sess, ?_, ?_⟩
      · show ((s.user_ids.map
            (fun e => (e.1, sweepSession now e.2))).map Prod.fst).Nodup
        rw [List.map_map]
        exact hnd
      · show List.lookup id
            (s.user_ids.map (fun e => (e.1, sweepSession now e.2))) = _
        rw [lookup_map_val, hl]
        rfl
      · by_cases hst : now - sess.last_active > 300 <;>
          simp [sweepSession, hst, hd]
  | heartbeat id2 now =>
      show DeadInv id (match sendMessageHeartbeat id2 now s with
        | Except.ok s2 => s2 | Except.error _ => s)
      cases hl2 : List.lookup id2 s.user_ids with
      | none =>
          rw [show sendMessageHeartbeat id2 now s =
            Except.error SubmitError.unknownClient by
              simp [sendMessageHeartbeat, hl2]]
          exact ⟨hnd, sess, hl, hd⟩
      | some sess2 =>
          rw [show sendMessageHeartbeat id2 now s = Except.ok { s with
              user_ids := odSet s.user_ids id2
                { sess2 with last_active := now } } by
            simp [sendMessageHeartbeat, hl2]]
          have hmem : id2 ∈ s.user_ids.map Prod.fst :=
            (lookup_isSome_iff _ _).mp (by simp [hl2])
          refine ⟨?_, ?_⟩
          · show ((odSet s.user_ids id2 _).map Prod.fst).Nodup
            rw [keys_odSet_of_mem _ _ _ hmem]
            exact hnd
          · by_cases h2 : id = id2
            · subst h2
              rw [hl] at hl2
              obtain rfl : sess = sess2 := by
                exact Option.some.inj hl2
              exact ⟨{ sess with last_active := now },
                lookup_odSet_self _ _ _, hd⟩
            · exact ⟨sess, by
                rw [show List.lookup id (odSet s.user_ids id2
                    { sess2 with last_active := now }) =
                  List.lookup id s.user_ids from
                    lookup_odSet_ne _ _ _ _ h2, hl], hd⟩
  | getID cands now =>
      show DeadInv id (match GetID cands now s with
        | some (s2, _) => s2 | none => s)
      cases hg : generate_ID s.user_ids cands with
      | none =>
          rw [show GetID cands now s = none by simp [GetID, hg]]
          exact ⟨hnd, sess, hl, hd⟩
      | some rid =>
          rw [show GetID cands now s = some ({ s with
              user_ids := s.user_ids ++
                [(rid, { user_num := s.user_ids.length + 1,
                         status := STATUS_ALIVE, last_active := now })] },
              rid, s.user_ids.length + 1) by simp [GetID, hg]]
          have hfresh : rid ∉ s.user_ids.map Prod.fst := by
            intro hmem
            have h4 := (lookup_isSome_iff s.user_ids rid).mpr hmem
            rw [generate_ID_fresh _ _ _ hg] at h4
            simp at h4
          refine ⟨?_, sess, ?_, hd⟩
          · show ((s.user_ids ++ _).map Prod.fst).Nodup
            rw [List.map_append]
            refine hnd.append (List.nodup_singleton rid) ?_
            intro a ha hb
            simp at hb
            subst hb
            exact hfresh ha
          · exact lookup_append_left _ _ _ _ hl
  | sendBye id2 =>
      have h2 : id2 ≠ id := by
        intro hh
        exact hop (by rw [hh])
      show DeadInv id (match SendBye id2 s with
        | Except.ok s2 => s2 | Except.error _ => s)
      by_cases h3 : (List.lookup id2 s.user_ids).isSome
      · rw [show SendBye id2 s = Except.ok { s with
            user_ids := s.user_ids.eraseP (fun e => e.1 == id2) } by
          simp [SendBye, h3]]
        refine ⟨?_, sess, ?_, hd⟩
        · exact ((List.eraseP_sublist _).map Prod.fst).nodup hnd
        · rw [lookup_eraseP_ne _ _ _ (fun hh => h2 hh.symm), hl]
      · rw [show SendBye id2 s = Except.error () by simp [SendBye, h3]]
        exact ⟨hnd, sess, hl, hd⟩

lemma foldl_preserves_dead (ops : List Op) (id : String) :
    ∀ s : ServerState, DeadInv id s →
      (∀ op ∈ ops, op ≠ Op.sendBye id) →
      DeadInv id (ops.foldl applyOp s) := by
  induction ops with
  | nil => exact fun s h _ => h
  | cons op rest ih =>
      intro s h hops
      rw [List.foldl_cons]
      exact ih _ (applyOp_preserves_dead id s op
          (hops op (List.mem_cons_self _ _)) h)
        (fun op2 hop2 => hops op2 (List.mem_cons_of_mem _ hop2))

lemma dead_excluded_from_alive (s : ServerState) (id : String)
    (h : DeadInv id s) :
    ∀ e ∈ s.user_ids.filter (fun e => e.2.status = STATUS_ALIVE),
      e.1 ≠ id := by
  obtain ⟨hnd, sess, hl, hd⟩ := h
  intro e he heq
  obtain ⟨hmem, hal⟩ := List.mem_filter.mp he
  have h2 : List.lookup e.1 s.user_ids = some e.2 :=
    lookup_eq_of_mem_nodup _ _ _ hnd (by simpa using hmem)
  rw [heq, hl] at h2
  obtain rfl : sess = e.2 := Option.some.inj h2
  rw [hd] at hal
  simp [STATUS_DEAD, STATUS_ALIVE] at hal

/-- C9: once a session has been marked DEAD, no sequence of operations
(staleness sweeps, heartbeats — including of that very client, which
only refresh its timestamp — registrations, or deregistrations of other
clients) ever sets its status back to ALIVE: the id stays registered
with status DEAD and is excluded from the set counted by the alive
count. -/
theorem c9_dead_stays_dead (ops : List Op) (s : ServerState) (id : String)
    (sess : Session)
    (hnd : (s.user_ids.map Prod.fst).Nodup)
    (h : List.lookup id s.user_ids = some sess)
    (hdead : sess.status = STATUS_DEAD)
    (hops : ∀ op ∈ ops, op ≠ Op.sendBye id) :
    ∃ sess2,
      List.lookup id (ops.foldl applyOp s).user_ids = some sess2 ∧
      sess2.status = STATUS_DEAD ∧
      ∀ e ∈ (ops.foldl applyOp s).user_ids.filter
          (fun e => e.2.status = STATUS_ALIVE),
        e.1 ≠ id := by
  have hinv : DeadInv id (ops.foldl applyOp s) :=
    foldl_preserves_dead ops id s ⟨hnd, sess, h, hdead⟩ hops
  obtain ⟨hnd2, sess2, hl2, hd2⟩ := hinv
  exact ⟨sess2, hl2, hd2,
    dead_excluded_from_alive _ _ ⟨hnd2, sess2, hl2, hd2⟩⟩

/-- C9, witness: the theorem applied to a DEAD session surviving a
heartbeat, a registration and an unrelated deregistration. -/
theorem c9_witness :
    ∃ sess2,
      List.lookup "0x1"
          (([Op.heartbeat "0x1" 10, Op.getID [3] 30,
              Op.sendBye "0x2"].foldl applyOp
            ⟨[("0x1", ⟨1, STATUS_DEAD, 0⟩), ("0x2", ⟨2, STATUS_ALIVE, 0⟩)],
              [], none, []⟩).user_ids) = some sess2 ∧
      sess2.status = STATUS_DEAD ∧
      ∀ e ∈ ([Op.heartbeat "0x1" 10, Op.getID [3] 30,
              Op.sendBye "0x2"].foldl applyOp
            ⟨[("0x1", ⟨1, STATUS_DEAD, 0⟩), ("0x2", ⟨2, STATUS_ALIVE, 0⟩)],
              [], none, []⟩).user_ids.filter
          (fun e => e.2.status = STATUS_ALIVE),
        e.1 ≠ "0x1" :=
  c9_dead_stays_dead
    [Op.heartbeat "0x1" 10, Op.getID [3] 30, Op.sendBye "0x2"]
    ⟨[("0x1", ⟨1, STATUS_DEAD, 0⟩), ("0x2", ⟨2, STATUS_ALIVE, 0⟩)],
      [], none, []⟩
    "0x1" ⟨1, STATUS_DEAD, 0⟩ (by decide) (by decide) rfl (by decide)

lemma initBarrier_mem_RSet : initBarrier ∈ RSet := by decide

lemma RSet_closed : ∀ s ∈ RSet, ∀ t ∈ succs s, t ∈ RSet := by decide

lemma reach_mem_RSet {s : BarrierState} (h : Reach s) : s ∈ RSet := by
  induction h with
  | refl => exact initBarrier_mem_RSet
  | step _ hmem ih => exact RSet_closed _ ih _ hmem

lemma rset_prop {P : BarrierState → Prop} (h : ∀ s ∈ RSet, P s) :
    ∀ s, Reach s → P s :=
  fun s hs => h s (reach_mem_RSet hs)

lemma measure_decreasing :
    ∀ s ∈ RSet, ∀ t ∈ succs s, measure t < measure s := by decide

lemma reach_foldl (l : List (Fin 2)) (s : BarrierState) (h : Reach s) :
    Reach (l.foldl (fun s2 i => (stepThread i s2).getD s2) s) := by
  induction l generalizing s with
  | nil => exact h
  | cons i rest ih =>
      rw [List.foldl_cons]
      refine ih _ ?_
      cases h2 : stepThread i s with
      | none => simpa [h2] using h
      | some t =>
          show Reach t
          refine Reach.step h ?_
          fin_cases i <;> simp [succs] <;>
            [exact Or.inl h2; exact Or.inr h2]

lemma reach_runSched (l : List (Fin 2)) : Reach (runSched l) :=
  reach_foldl l initBarrier Reach.refl

/-- C1 (amended): in the interleaving model of one round of
`target_clients = 2` concurrent `SendMessage` calls by distinct
clients, every complete execution ends with `_compute_global_average`
invoked exactly twice — once by each caller, not exactly once as
claimed — of which exactly one invocation saw a non-empty collected set
and published the aggregate of the two submitted maps; each call
returns only after that aggregate is published, both callers observe
the same published snapshot at return, no reachable unfinished state is
stuck (no caller is blocked forever), and every execution
terminates. -/
theorem c1_round_barrier :
    (∀ s, Reach s → bothDone s = true →
      s.aggCount = 2 ∧ s.effCount = 1 ∧
      (s.published = some [0, 1] ∨ s.published = some [1, 0]) ∧
      s.t0.obs = s.published ∧ s.t1.obs = s.published) ∧
    (∀ s, Reach s → (s.t0.pc = PC.done ∨ s.t1.pc = PC.done) →
      s.effCount = 1 ∧ s.published ≠ none) ∧
    (∀ s, Reach s → bothDone s = false → succs s ≠ []) ∧
    (∀ f : ℕ → BarrierState, f 0 = initBarrier →
      ¬ ∀ n, f (n + 1) ∈ succs (f n)) := by
  refine ⟨rset_prop (by decide), rset_prop (by decide),
    rset_prop (by decide), ?_⟩
  intro f h0 hstep
  have hreach : ∀ n, Reach (f n) := by
    intro n
    induction n with
    | zero => rw [h0]; exact Reach.refl
    | succ n ih => exact Reach.step ih (hstep n)
  have hdec : ∀ n, measure (f (n + 1)) < measure (f n) :=
    fun n => measure_decreasing _ (reach_mem_RSet (hreach n)) _ (hstep n)
  have hle : ∀ n, measure (f n) + n ≤ measure (f 0) := by
    intro n
    induction n with
    | zero => simp
    | succ n ih =>
        have := hdec n
        omega
  have := hle (measure (f 0) + 1)
  omega

/-- C1, counterexample to the claim as stated: a complete execution of
the round in which both calls return and the aggregation function has
been invoked twice for the round, not exactly once. -/
theorem c1_counterexample :
    Reach (runSched [0, 0, 1, 1, 1, 0, 0]) ∧
    bothDone (runSched [0, 0, 1, 1, 1, 0, 0]) = true ∧
    (runSched [0, 0, 1, 1, 1, 0, 0]).aggCount = 2 :=
  ⟨reach_runSched _, by decide, by decide⟩

/-- C1, witness: the final-state conjunct of the theorem applied to the
final state of a concrete complete schedule of the two calls. -/
theorem c1_witness :
    (runSched [0, 0, 1, 1, 1, 0, 0]).aggCount = 2 ∧
    (runSched [0, 0, 1, 1, 1, 0, 0]).effCount = 1 ∧
    ((runSched [0, 0, 1, 1, 1, 0, 0]).published = some [0, 1] ∨
      (runSched [0, 0, 1, 1, 1, 0, 0]).published = some [1, 0]) ∧
    (runSched [0, 0, 1, 1, 1, 0, 0]).t0.obs =
      (runSched [0, 0, 1, 1, 1, 0, 0]).published ∧
    (runSched [0, 0, 1, 1, 1, 0, 0]).t1.obs =
      (runSched [0, 0, 1, 1, 1, 0, 0]).published :=
  c1_round_barrier.1 (runSched [0, 0, 1, 1, 1, 0, 0])
    (reach_runSched _) (by decide)

/-- C3 (amended): the order is the reverse of the claimed one — in
every reachable state of the round model, if the aggregate has been
computed (indeed, if the aggregation routine has been invoked at all)
then `notify_all` has already run, so the notify always precedes the
computation and publication of the round's aggregate, which is
performed by whichever submitter first acquires the lock afterwards;
the effective aggregation still happens at most once, and no submitter
returns before the aggregate is published. -/
theorem c3_notify_precedes_publish :
    (∀ s, Reach s → 1 ≤ s.effCount → s.notified = true) ∧
    (∀ s, Reach s → 1 ≤ s.aggCount → s.notified = true) ∧
    (∀ s, Reach s → s.effCount ≤ 1) ∧
    (∀ s, Reach s → ∀ i : Fin 2, (getT s i).pc = PC.done →
      s.published ≠ none) :=
  ⟨rset_prop (by decide), rset_prop (by decide),
    rset_prop (by decide), rset_prop (by decide)⟩

/-- C3, counterexample to the claim as stated: a reachable state in
which the quorum-completing submission has already run `notify_all` and
the blocked submitter has been woken, while `_compute_global_average`
has not been invoked and nothing is published — the woken submitter
observes an unpublished, pre-aggregation state. -/
theorem c3_counterexample :
    Reach (runSched [0, 0, 1]) ∧
    (runSched [0, 0, 1]).notified = true ∧
    (runSched [0, 0, 1]).aggCount = 0 ∧
    (runSched [0, 0, 1]).effCount = 0 ∧
    (runSched [0, 0, 1]).published = none ∧
    (runSched [0, 0, 1]).t0.pc = PC.woken :=
  ⟨reach_runSched _, by decide, by decide, by decide, by decide, by decide⟩

/-- C3, witness: the notify-precedes-publish conjunct applied at a
reachable state in which the aggregation has occurred. -/
theorem c3_witness :
    (runSched [0, 0, 1, 1, 1]).notified = true :=
  c3_notify_precedes_publish.1 (runSched [0, 0, 1, 1, 1])
    (reach_runSched _) (by decide)

end Sonar
